import Mathlib

/-!
# Verification of the `tradingtester` backtesting engine

Shallow embedding of `src/backend/backtester/engine.py` (class `BacktestEngine`,
method `run`, and the `BacktestResult` record).  Python floats are modelled by
exact rationals (`ℚ`); timestamps are modelled at daily resolution by integer
day indices, so `(date - entry_date).days` becomes integer subtraction.  The
engine is modelled from the point where the bar series already carries its
`signal` column (`calculate_indicators` / `generate_signals` only add columns
and do not change the row count, so emptiness and bar count are unaffected).
The strategy object is modelled as a record of its hook functions, each
threading the strategy's private mutable state (an arbitrary type `σ`), which
is the most general reading of the Python hooks' in-place mutation.
-/

namespace TradingTester

/-- Position side: the engine stores `"LONG"` or `"SHORT"`. -/
inductive Side where
  | long
  | short
deriving DecidableEq

/-- One row of the signal-annotated price data: timestamp (day index), the
`close` column, and the `signal` column produced by `generate_signals`. -/
structure Bar where
  date : Int
  close : ℚ
  signal : Int
deriving DecidableEq

/-- One entry of the `trades` list built by `BacktestEngine.run`
(the dict literals at engine.py lines 171-182 and 261-272).  The `side` field
mirrors `position_type`, which is an `Optional[str]` in the Python state. -/
structure Trade where
  entry_date : Int
  exit_date : Int
  side : Option Side
  entry_price : ℚ
  exit_price : ℚ
  size : ℚ
  leverage : ℚ
  pnl : ℚ
  pnl_pct : ℚ
  days_held : Int
deriving DecidableEq

/-- The strategy hooks consumed by the engine (engine.py lines 140-147,
197, 200-205, 223-229, 185), state-threaded: each hook may mutate the
strategy's private state `σ`.  `check_exit_conditions` receives
`current_price`, `entry_price`, `days_held`, the data prefix `data.iloc[:i+1]`
and `position_type or "LONG"`. -/
structure Strategy (σ : Type) where
  check_exit_conditions : σ → ℚ → ℚ → Int → List Bar → Side → Bool × σ
  get_leverage : σ → List Bar → ℚ × σ
  calculate_position_size : σ → ℚ → ℚ → List Bar → ℚ × σ
  open_position : σ → ℚ → ℚ → Int → Side → σ
  close_position : σ → σ

/-- The loop state of `BacktestEngine.run` (engine.py lines 114-123), plus the
strategy's private state. -/
structure EngineState (σ : Type) where
  cash : ℚ
  position_size : ℚ
  position_entry_price : ℚ
  position_entry_date : Option Int
  position_type : Option Side
  position_leverage : ℚ
  trades : List Trade
  equity_curve : List ℚ
  strat : σ

/-- `raw_pnl` (engine.py lines 156, 163, 249, 252): `(exit - entry) * size`
for LONG, `(entry - exit) * size` otherwise (the Python `else` branch also
covers `position_type is None`, which cannot occur while a position is open). -/
def raw_pnl (ptype : Option Side) (entry exitP size : ℚ) : ℚ :=
  match ptype with
  | some Side.long => (exitP - entry) * size
  | _ => (entry - exitP) * size

/-- `leveraged_pnl = raw_pnl * position_leverage`
(engine.py lines 157, 164, 250, 253; same formula marks the unrealized P&L at
lines 235, 237). -/
def leveraged_pnl (ptype : Option Side) (entry exitP size lev : ℚ) : ℚ :=
  raw_pnl ptype entry exitP size * lev

/-- `margin = (size * price) / leverage` (engine.py lines 159, 165, 210, 233,
255): the capital actually committed to a position. -/
def margin_required (size price lev : ℚ) : ℚ :=
  size * price / lev

/-- `commission_cost = trade_value * commission = (size * price) * commission`
(engine.py lines 151-152 at exit, 208 and 211 at entry).  It takes no
leverage argument: commission is charged on notional, independent of
leverage. -/
def commission_on_notional (size price rate : ℚ) : ℚ :=
  size * price * rate

/-- Step 1 of the per-bar loop body (engine.py lines 137-190): exit check while
a position is open, realizing P&L and recording a `Trade` when the strategy
says to exit. -/
def exit_step {σ : Type} (s : Strategy σ) (commission : ℚ) (data : List Bar)
    (i : Nat) (bar : Bar) (st : EngineState σ) : EngineState σ :=
  if st.position_size ≠ 0 ∧ st.position_entry_date.isSome then
    let entryDate := st.position_entry_date.getD 0
    let days_held := bar.date - entryDate
    let res := s.check_exit_conditions st.strat bar.close st.position_entry_price
      days_held (data.take (i + 1)) (st.position_type.getD Side.long)
    let st1 : EngineState σ := { st with strat := res.2 }
    if res.1 then
      let commission_cost := commission_on_notional st1.position_size bar.close commission
      let lp := leveraged_pnl st1.position_type st1.position_entry_price bar.close
        st1.position_size st1.position_leverage
      let margin_used := margin_required st1.position_size st1.position_entry_price
        st1.position_leverage
      let pnl := lp - commission_cost
      { st1 with
        cash := st1.cash + margin_used + lp - commission_cost
        trades := st1.trades ++ [{
          entry_date := entryDate
          exit_date := bar.date
          side := st1.position_type
          entry_price := st1.position_entry_price
          exit_price := bar.close
          size := st1.position_size
          leverage := st1.position_leverage
          pnl := pnl
          pnl_pct := if margin_used > 0 then pnl / margin_used * 100 else 0
          days_held := days_held }]
        strat := s.close_position res.2
        position_size := 0
        position_entry_price := 0
        position_entry_date := none
        position_type := none
        position_leverage := 1 }
    else st1
  else st

/-- Step 2 of the per-bar loop body (engine.py lines 193-229): entry on a
nonzero signal while flat.  `portfolio_value` is the value computed at the top
of the loop body (line 134), before the exit step ran. -/
def entry_step {σ : Type} (s : Strategy σ) (commission : ℚ) (data : List Bar)
    (i : Nat) (bar : Bar) (portfolio_value : ℚ) (st : EngineState σ) : EngineState σ :=
  if st.position_size = 0 ∧ bar.signal ≠ 0 then
    let lres := s.get_leverage st.strat (data.take (i + 1))
    let sres := s.calculate_position_size lres.2 bar.close portfolio_value (data.take (i + 1))
    let st1 : EngineState σ := { st with strat := sres.2 }
    let size := sres.1
    if size > 0 then
      let req := margin_required size bar.close lres.1
      let commission_cost := commission_on_notional size bar.close commission
      if st1.cash ≥ req + commission_cost then
        let ptype : Side := if bar.signal > 0 then Side.long else Side.short
        { st1 with
          cash := st1.cash - (req + commission_cost)
          position_size := size
          position_entry_price := bar.close
          position_entry_date := some bar.date
          position_type := some ptype
          position_leverage := lres.1
          strat := s.open_position sres.2 bar.close size bar.date ptype }
      else st1
    else st1
  else st

/-- Step 3 of the per-bar loop body (engine.py lines 231-241): record one
equity-curve sample, marking an open position to market at
`cash + margin_in_position + unrealized_pnl`. -/
def equity_step {σ : Type} (bar : Bar) (st : EngineState σ) : EngineState σ :=
  let pv :=
    if st.position_size ≠ 0 then
      st.cash
        + margin_required st.position_size st.position_entry_price st.position_leverage
        + leveraged_pnl st.position_type st.position_entry_price bar.close
            st.position_size st.position_leverage
    else st.cash
  { st with equity_curve := st.equity_curve ++ [pv] }

/-- One iteration of the loop body (engine.py lines 132-241).  The
`portfolio_value` handed to `calculate_position_size` is computed at the top of
the body (line 134), from the state *before* the exit step. -/
def process_bar {σ : Type} (s : Strategy σ) (commission : ℚ) (data : List Bar)
    (i : Nat) (bar : Bar) (st : EngineState σ) : EngineState σ :=
  let portfolio_value :=
    st.cash + (if st.position_size ≠ 0 then st.position_size * bar.close else 0)
  equity_step bar
    (entry_step s commission data i bar portfolio_value
      (exit_step s commission data i bar st))

/-- The `for i, (date, row) in enumerate(data.iterrows())` loop
(engine.py line 132), with `i` the running index into `data`. -/
def run_bars {σ : Type} (s : Strategy σ) (commission : ℚ) (data : List Bar) :
    Nat → List Bar → EngineState σ → EngineState σ
  | _, [], st => st
  | i, bar :: rest, st =>
      run_bars s commission data (i + 1) rest (process_bar s commission data i bar st)

/-- The post-loop forced liquidation (engine.py lines 243-272): if a position
is still open it is closed at the final bar's close, crediting
`margin_used + leveraged_pnl` to cash with **no** commission term, and the
trade is recorded with `pnl = leveraged_pnl`.  The Python code neither resets
the position fields nor calls `close_position` here. -/
def force_close {σ : Type} (lastBar : Bar) (st : EngineState σ) : EngineState σ :=
  if st.position_size ≠ 0 then
    let lp := leveraged_pnl st.position_type st.position_entry_price lastBar.close
      st.position_size st.position_leverage
    let margin_used := margin_required st.position_size st.position_entry_price
      st.position_leverage
    let days_held :=
      match st.position_entry_date with
      | some d => lastBar.date - d
      | none => 0
    { st with
      cash := st.cash + margin_used + lp
      trades := st.trades ++ [{
        entry_date := st.position_entry_date.getD 0
        exit_date := lastBar.date
        side := st.position_type
        entry_price := st.position_entry_price
        exit_price := lastBar.close
        size := st.position_size
        leverage := st.position_leverage
        pnl := lp
        pnl_pct := if margin_used > 0 then lp / margin_used * 100 else 0
        days_held := days_held }] }
  else st

/-- `np.mean` of a list of rationals (used on nonempty lists only, as in the
source, where it is guarded by nonemptiness). -/
def list_mean (l : List ℚ) : ℚ :=
  l.sum / l.length

/-- Helper for `running_max`: the expanding maximum continued from `m`. -/
def running_max_from (m : ℚ) : List ℚ → List ℚ
  | [] => []
  | x :: xs => max m x :: running_max_from (max m x) xs

/-- `equity_series.expanding().max()` (engine.py line 289): entry `i` is the
maximum of the first `i + 1` equity samples. -/
def running_max : List ℚ → List ℚ
  | [] => []
  | x :: xs => x :: running_max_from x xs

/-- `series.min()` (engine.py line 291); the default is irrelevant because the
equity curve is nonempty whenever the engine reaches this point. -/
def list_minD (l : List ℚ) (d : ℚ) : ℚ :=
  match l with
  | [] => d
  | x :: xs => xs.foldl min x

/-- `series.max()` (engine.py line 292); default as in `list_minD`. -/
def list_maxD (l : List ℚ) (d : ℚ) : ℚ :=
  match l with
  | [] => d
  | x :: xs => xs.foldl max x

/-- `equity_series.pct_change().dropna()` (engine.py line 295): the bar-to-bar
percent returns `(eᵢ − eᵢ₋₁) / eᵢ₋₁`, the leading not-a-number dropped.
Division is exact rational division (Lean's `x / 0 = 0` convention stands in
for the float edge case of a zero previous equity value). -/
def pct_changes (l : List ℚ) : List ℚ :=
  List.zipWith (fun a b => (b - a) / a) l l.tail

/-- `returns.std()` squared: the pandas sample variance (`ddof = 1`),
`Σ (x − mean)² / (n − 1)`.  With Lean's `x / 0 = 0` convention a single
observation gives variance `0`, which makes the guard below agree with the
pandas behaviour where `std()` of one observation is not-a-number and the
comparison `std > 0` is false. -/
def sample_variance (l : List ℚ) : ℚ :=
  (l.map (fun x => (x - list_mean l) ^ 2)).sum / ((l.length : ℚ) - 1)

/-- The `sharpe_ratio` expression (engine.py lines 294-300):
`(returns.mean() / returns.std()) * sqrt(252)` when there is at least one
return observation with positive variance, else `0.0`.  The square roots force
real-number values; everything feeding this definition stays rational. -/
noncomputable def sharpe_ratio (equity : List ℚ) : ℝ :=
  let r := pct_changes equity
  if 0 < r.length ∧ 0 < sample_variance r then
    ((list_mean r : ℝ) / Real.sqrt (sample_variance r)) * Real.sqrt 252
  else 0

/-- The metrics of `BacktestResult` (engine.py lines 15-38) that are numeric
and deterministic from the loop state: strings, dates and metadata are
omitted; the Sharpe ratio is computed from `equity_curve` by `sharpe_ratio`
above, exactly as the source computes it from `equity_series`. -/
structure BacktestResult where
  initial_capital : ℚ
  final_capital : ℚ
  total_return : ℚ
  total_return_pct : ℚ
  num_trades : Nat
  winning_trades : Nat
  losing_trades : Nat
  win_rate : ℚ
  avg_win : ℚ
  avg_loss : ℚ
  max_drawdown : ℚ
  max_drawdown_pct : ℚ
  trades : List Trade
  equity_curve : List ℚ
deriving DecidableEq

/-- The metric block of `BacktestEngine.run` (engine.py lines 274-322). -/
def compute_result {σ : Type} (initial : ℚ) (st : EngineState σ) : BacktestResult :=
  let final_capital := st.cash
  let total_return := final_capital - initial
  let winning := st.trades.filter (fun t => t.pnl > 0)
  let losing := st.trades.filter (fun t => t.pnl ≤ 0)
  let num_trades := st.trades.length
  let win_rate : ℚ := if 0 < num_trades then (winning.length : ℚ) / (num_trades : ℚ) else 0
  let avg_win := if winning.length ≠ 0 then list_mean (winning.map Trade.pnl) else 0
  let avg_loss := if losing.length ≠ 0 then list_mean (losing.map Trade.pnl) else 0
  let rmax := running_max st.equity_curve
  let drawdown := List.zipWith (fun a b => a - b) st.equity_curve rmax
  let max_drawdown := list_minD drawdown 0
  let peak := list_maxD rmax 0
  let max_drawdown_pct := if 0 < peak then max_drawdown / peak * 100 else 0
  { initial_capital := initial
    final_capital := final_capital
    total_return := total_return
    total_return_pct := total_return / initial * 100
    num_trades := num_trades
    winning_trades := winning.length
    losing_trades := losing.length
    win_rate := win_rate
    avg_win := avg_win
    avg_loss := avg_loss
    max_drawdown := max_drawdown
    max_drawdown_pct := max_drawdown_pct
    trades := st.trades
    equity_curve := st.equity_curve }

/-- The engine's configuration (engine.py lines 73-92; the environment-variable
defaults are a construction concern outside the `run` algorithm). -/
structure BacktestEngine where
  initial_capital : ℚ
  commission : ℚ

/-- The initial loop state (engine.py lines 114-123). -/
def init_state {σ : Type} (initial : ℚ) (s0 : σ) : EngineState σ :=
  { cash := initial
    position_size := 0
    position_entry_price := 0
    position_entry_date := none
    position_type := none
    position_leverage := 1
    trades := []
    equity_curve := []
    strat := s0 }

/-- The loop state after all bars have been processed. -/
def loop_state {σ : Type} (e : BacktestEngine) (s : Strategy σ) (s0 : σ)
    (data : List Bar) : EngineState σ :=
  run_bars s e.commission data 0 data (init_state e.initial_capital s0)

/-- The successful result of `BacktestEngine.run` on nonempty data:
loop, forced close at `data.iloc[-1]`, metrics. -/
def BacktestEngine.runOk {σ : Type} (e : BacktestEngine) (s : Strategy σ) (s0 : σ)
    (data : List Bar) : BacktestResult :=
  compute_result e.initial_capital
    (force_close (data.getLastD { date := 0, close := 0, signal := 0 })
      (loop_state e s s0 data))

/-- `BacktestEngine.run` (engine.py lines 94-322): `raise ValueError` on empty
data (line 111-112), modelled as `Except.error`, before any simulation state is
created; otherwise the full simulation. -/
def BacktestEngine.run {σ : Type} (e : BacktestEngine) (s : Strategy σ) (s0 : σ)
    (data : List Bar) : Except String BacktestResult :=
  match data with
  | [] => Except.error "Cannot backtest with empty data"
  | _ :: _ => Except.ok (e.runOk s s0 data)

/-!
## Concrete fixtures

Stateless strategies (state type `Unit`) with constant answers, used to
instantiate the universally quantified theorems and to test the spec's literal
computations.
-/

/-- A strategy that never exits, uses leverage 1, and always sizes 10 units:
the single-LONG-trade scenario of the spec's literal computation. -/
def stratHold10 : Strategy Unit :=
  { check_exit_conditions := fun u _ _ _ _ _ => (false, u)
    get_leverage := fun u _ => (1, u)
    calculate_position_size := fun u _ _ _ => (10, u)
    open_position := fun u _ _ _ _ => u
    close_position := fun u => u }

/-- A strategy that never exits, uses leverage 1, and always sizes 1 unit. -/
def stratHold1 : Strategy Unit :=
  { check_exit_conditions := fun u _ _ _ _ _ => (false, u)
    get_leverage := fun u _ => (1, u)
    calculate_position_size := fun u _ _ _ => (1, u)
    open_position := fun u _ _ _ _ => u
    close_position := fun u => u }

/-- Engine with the spec's example configuration: initial capital 100000,
commission rate 0.001. -/
def engineSpec : BacktestEngine :=
  { initial_capital := 100000, commission := 1 / 1000 }

/-- Two bars: a LONG signal at close 100 on day 0, then close 110 on day 1
with no signal — the spec's single-trade forced-close example. -/
def dataLong : List Bar :=
  [{ date := 0, close := 100, signal := 1 },
   { date := 1, close := 110, signal := 0 }]

/-- Two bars with no signal at all. -/
def dataFlat : List Bar :=
  [{ date := 0, close := 100, signal := 0 },
   { date := 1, close := 110, signal := 0 }]

/-- A small engine for the drawdown scenario: initial capital 101,
commission rate 0.001. -/
def engineSmall : BacktestEngine :=
  { initial_capital := 101, commission := 1 / 1000 }

/-- A SHORT signal at close 100 on day 0, then the price trebles: the open
short position's mark-to-market equity goes below zero. -/
def dataShortBlowup : List Bar :=
  [{ date := 0, close := 100, signal := -1 },
   { date := 1, close := 300, signal := 0 }]

/-!
## General lemmas
-/

/-- A successful `run` forces nonempty data and identifies the result. -/
lemma run_eq_ok {σ : Type} (e : BacktestEngine) (s : Strategy σ) (s0 : σ)
    (data : List Bar) (r : BacktestResult)
    (h : e.run s s0 data = Except.ok r) :
    data ≠ [] ∧ r = e.runOk s s0 data := by
  cases data with
  | nil => simp [BacktestEngine.run] at h
  | cons b bs =>
      refine ⟨by simp, ?_⟩
      simpa [BacktestEngine.run] using h.symm

/-- Full evaluation of the run on the spec's literal single-LONG-trade
scenario. -/
lemma runOk_long_eval :
    engineSpec.runOk stratHold10 () dataLong =
      { initial_capital := 100000, final_capital := 100099, total_return := 99,
        total_return_pct := 99 / 1000, num_trades := 1, winning_trades := 1,
        losing_trades := 0, win_rate := 1, avg_win := 100, avg_loss := 0,
        max_drawdown := 0, max_drawdown_pct := 0,
        trades := [{ entry_date := 0, exit_date := 1, side := some Side.long,
                     entry_price := 100, exit_price := 110, size := 10, leverage := 1,
                     pnl := 100, pnl_pct := 10, days_held := 1 }],
        equity_curve := [99999, 100099] } := by
  norm_num [BacktestEngine.runOk, loop_state, run_bars, process_bar, exit_step,
    entry_step, equity_step, force_close, compute_result, init_state, engineSpec,
    stratHold10, dataLong, raw_pnl, leveraged_pnl, margin_required,
    commission_on_notional, list_mean, list_minD, list_maxD, running_max,
    running_max_from]

/-- Full evaluation of the run on the short-position blow-up scenario, where
the equity curve dips below zero. -/
lemma runOk_short_eval :
    engineSmall.runOk stratHold1 () dataShortBlowup =
      { initial_capital := 101, final_capital := -991 / 10, total_return := -2001 / 10,
        total_return_pct := -20010 / 101, num_trades := 1, winning_trades := 0,
        losing_trades := 1, win_rate := 0, avg_win := 0, avg_loss := -200,
        max_drawdown := -200, max_drawdown_pct := -200000 / 1009,
        trades := [{ entry_date := 0, exit_date := 1, side := some Side.short,
                     entry_price := 100, exit_price := 300, size := 1, leverage := 1,
                     pnl := -200, pnl_pct := -200, days_held := 1 }],
        equity_curve := [1009 / 10, -991 / 10] } := by
  norm_num [BacktestEngine.runOk, loop_state, run_bars, process_bar, exit_step,
    entry_step, equity_step, force_close, compute_result, init_state, engineSmall,
    stratHold1, dataShortBlowup, raw_pnl, leveraged_pnl, margin_required,
    commission_on_notional, list_mean, list_minD, list_maxD, running_max,
    running_max_from]

/-- Full evaluation of the run on the all-signals-zero scenario. -/
lemma runOk_flat_eval :
    engineSpec.runOk stratHold10 () dataFlat =
      { initial_capital := 100000, final_capital := 100000, total_return := 0,
        total_return_pct := 0, num_trades := 0, winning_trades := 0,
        losing_trades := 0, win_rate := 0, avg_win := 0, avg_loss := 0,
        max_drawdown := 0, max_drawdown_pct := 0, trades := [],
        equity_curve := [100000, 100000] } := by
  norm_num [BacktestEngine.runOk, loop_state, run_bars, process_bar, exit_step,
    entry_step, equity_step, force_close, compute_result, init_state, engineSpec,
    stratHold10, dataFlat, raw_pnl, leveraged_pnl, margin_required,
    commission_on_notional, list_mean, list_minD, list_maxD, running_max,
    running_max_from]

section ComputeResultProjections

variable {σ : Type} (initial : ℚ) (st : EngineState σ)

@[simp] lemma compute_result_final_capital :
    (compute_result initial st).final_capital = st.cash := rfl

@[simp] lemma compute_result_num_trades :
    (compute_result initial st).num_trades = st.trades.length := rfl

@[simp] lemma compute_result_winning_trades :
    (compute_result initial st).winning_trades =
      (st.trades.filter (fun t => t.pnl > 0)).length := rfl

@[simp] lemma compute_result_win_rate :
    (compute_result initial st).win_rate =
      if 0 < st.trades.length then
        (((st.trades.filter (fun t => t.pnl > 0)).length : ℚ) / (st.trades.length : ℚ))
      else 0 := rfl

@[simp] lemma compute_result_trades :
    (compute_result initial st).trades = st.trades := rfl

@[simp] lemma compute_result_equity_curve :
    (compute_result initial st).equity_curve = st.equity_curve := rfl

@[simp] lemma compute_result_max_drawdown :
    (compute_result initial st).max_drawdown =
      list_minD (List.zipWith (fun a b => a - b) st.equity_curve
        (running_max st.equity_curve)) 0 := rfl

@[simp] lemma compute_result_max_drawdown_pct :
    (compute_result initial st).max_drawdown_pct =
      if 0 < list_maxD (running_max st.equity_curve) 0 then
        list_minD (List.zipWith (fun a b => a - b) st.equity_curve
          (running_max st.equity_curve)) 0 / list_maxD (running_max st.equity_curve) 0 * 100
      else 0 := rfl

end ComputeResultProjections

/-!
## Claims
-/

/-- **C7.** For every empty bar series, `run` fails fast with the input
validation error, producing no result at all: no simulation state is created
and no partial result escapes (the `Except.error` value carries nothing but
the message). -/
theorem claim_C7 {σ : Type} (e : BacktestEngine) (s : Strategy σ) (s0 : σ) :
    e.run s s0 [] = Except.error "Cannot backtest with empty data" :=
  rfl

/-- **C1, counterexample.** In the spec's literal scenario (initial capital
100000, commission 0.001, one LONG trade entered at 100 with size 10 and
leverage 1, held to the forced close at final close 110) the code does *not*
produce realized P&L 98.9 and final capital 100097.9: the forced close charges
no exit commission. -/
theorem claim_C1_counterexample :
    ¬ ((engineSpec.runOk stratHold10 () dataLong).trades.map Trade.pnl = [989 / 10] ∧
       (engineSpec.runOk stratHold10 () dataLong).final_capital = 1000979 / 10) := by
  rw [runOk_long_eval]
  norm_num

/-- **C1, amended.** In the spec's literal scenario the recorded trade has
realized P&L 100 (the leveraged P&L with no exit-commission deduction, the
forced close being commission-free) and the final capital is 100099
(= 100000 − 1000 − 1.0 + 1000 + 100). -/
theorem claim_C1 :
    (engineSpec.runOk stratHold10 () dataLong).trades =
      [{ entry_date := 0, exit_date := 1, side := some Side.long, entry_price := 100,
         exit_price := 110, size := 10, leverage := 1, pnl := 100, pnl_pct := 10,
         days_held := 1 }] ∧
    (engineSpec.runOk stratHold10 () dataLong).final_capital = 100099 ∧
    engineSpec.run stratHold10 () dataLong =
      Except.ok (engineSpec.runOk stratHold10 () dataLong) :=
  ⟨by rw [runOk_long_eval], by rw [runOk_long_eval], rfl⟩

/-- **C5, counterexample.** A completed run (initial capital 101, commission
0.001, a short position opened at 100 whose price trebles to 300 so that the
marked-to-market equity goes negative) reports a max drawdown percent of
−200000/1009 ≈ −198.2, outside the claimed interval (−100, 0]. -/
theorem claim_C5_counterexample :
    engineSmall.run stratHold1 () dataShortBlowup =
      Except.ok (engineSmall.runOk stratHold1 () dataShortBlowup) ∧
    ¬ (-100 < (engineSmall.runOk stratHold1 () dataShortBlowup).max_drawdown_pct) :=
  ⟨rfl, by rw [runOk_short_eval]; norm_num⟩

/-- **C4.** With entry price, exit price and positive size held fixed, doubling
the leverage doubles the leveraged P&L and halves the margin, while the entry
and exit commissions are `notional × rate` (engine.py lines 151-152, 208, 211),
a formula with no leverage argument, hence unchanged when leverage doubles. -/
theorem claim_C4 (ptype : Option Side) (entry exitP size lev rate : ℚ)
    (_hsize : 0 < size) :
    leveraged_pnl ptype entry exitP size (2 * lev)
        = 2 * leveraged_pnl ptype entry exitP size lev ∧
    margin_required size entry (2 * lev) = margin_required size entry lev / 2 ∧
    commission_on_notional size entry rate = size * entry * rate ∧
    commission_on_notional size exitP rate = size * exitP * rate := by
  refine ⟨by unfold leveraged_pnl; ring, ?_, rfl, rfl⟩
  unfold margin_required
  rw [div_div, mul_comm lev 2]

/-- Witness for C4 at entry 100, exit 110, size 10, leverage 3, rate 0.001. -/
theorem claim_C4_witness :
    (0 : ℚ) < 10 ∧
    (leveraged_pnl (some Side.long) 100 110 10 (2 * 3)
        = 2 * leveraged_pnl (some Side.long) 100 110 10 3 ∧
     margin_required 10 100 (2 * 3) = margin_required 10 100 3 / 2 ∧
     commission_on_notional 10 100 (1 / 1000) = 10 * 100 * (1 / 1000) ∧
     commission_on_notional 10 110 (1 / 1000) = 10 * 110 * (1 / 1000)) :=
  ⟨by norm_num, claim_C4 (some Side.long) 100 110 10 3 (1 / 1000) (by norm_num)⟩

/-- **C6.** For every completed run the win rate is the number of trades with
positive P&L over the total number of trades (0 when there are none), lies in
[0, 1], and vanishes exactly when there are no winning trades. -/
theorem claim_C6 {σ : Type} (e : BacktestEngine) (s : Strategy σ) (s0 : σ)
    (data : List Bar) (r : BacktestResult)
    (h : e.run s s0 data = Except.ok r) :
    (0 < r.num_trades → r.win_rate = (r.winning_trades : ℚ) / (r.num_trades : ℚ)) ∧
    (r.num_trades = 0 → r.win_rate = 0) ∧
    0 ≤ r.win_rate ∧ r.win_rate ≤ 1 ∧
    (r.win_rate = 0 ↔ r.winning_trades = 0) := by
  obtain ⟨-, rfl⟩ := run_eq_ok e s s0 data r h
  unfold BacktestEngine.runOk
  generalize force_close (data.getLastD { date := 0, close := 0, signal := 0 })
    (loop_state e s s0 data) = st
  have hwl : (st.trades.filter (fun t => t.pnl > 0)).length ≤ st.trades.length :=
    List.length_filter_le _ _
  by_cases hn : 0 < st.trades.length
  · have hn' : (0 : ℚ) < (st.trades.length : ℚ) := by exact_mod_cast hn
    simp only [compute_result_num_trades, compute_result_winning_trades,
      compute_result_win_rate, if_pos hn]
    refine ⟨fun _ => trivial, fun h0 => absurd h0 (Nat.pos_iff_ne_zero.mp hn), ?_, ?_, ?_⟩
    · positivity
    · rw [div_le_one hn']
      exact_mod_cast hwl
    · rw [div_eq_zero_iff]
      constructor
      · rintro (h0 | h0)
        · exact_mod_cast h0
        · exact absurd h0 (ne_of_gt hn')
      · intro h0
        exact Or.inl (by exact_mod_cast h0)
  · have hz : st.trades.length = 0 := Nat.eq_zero_of_not_pos hn
    have hw : (st.trades.filter (fun t => t.pnl > 0)).length = 0 :=
      Nat.le_zero.mp (hz ▸ hwl)
    simp only [compute_result_num_trades, compute_result_winning_trades,
      compute_result_win_rate, if_neg hn, hz, hw]
    norm_num

/-- The exit step never touches the equity curve. -/
lemma exit_step_equity {σ : Type} (s : Strategy σ) (c : ℚ) (data : List Bar)
    (i : Nat) (bar : Bar) (st : EngineState σ) :
    (exit_step s c data i bar st).equity_curve = st.equity_curve := by
  unfold exit_step
  dsimp only
  split
  · split <;> rfl
  · rfl

/-- The entry step never touches the equity curve. -/
lemma entry_step_equity {σ : Type} (s : Strategy σ) (c : ℚ) (data : List Bar)
    (i : Nat) (bar : Bar) (pv : ℚ) (st : EngineState σ) :
    (entry_step s c data i bar pv st).equity_curve = st.equity_curve := by
  unfold entry_step
  dsimp only
  split
  · split
    · split <;> rfl
    · rfl
  · rfl

/-- Each loop iteration appends exactly one equity sample. -/
lemma process_bar_equity_length {σ : Type} (s : Strategy σ) (c : ℚ) (data : List Bar)
    (i : Nat) (bar : Bar) (st : EngineState σ) :
    (process_bar s c data i bar st).equity_curve.length = st.equity_curve.length + 1 := by
  unfold process_bar equity_step
  simp [entry_step_equity, exit_step_equity]

/-- The loop appends one equity sample per remaining bar. -/
lemma run_bars_equity_length {σ : Type} (s : Strategy σ) (c : ℚ) (data : List Bar) :
    ∀ (rest : List Bar) (i : Nat) (st : EngineState σ),
      (run_bars s c data i rest st).equity_curve.length =
        st.equity_curve.length + rest.length
  | [], _, _ => rfl
  | bar :: rest, i, st => by
      rw [run_bars, run_bars_equity_length s c data rest (i + 1) _,
        process_bar_equity_length]
      simp [List.length_cons]
      ring

/-- The forced close never touches the equity curve. -/
lemma force_close_equity {σ : Type} (lastBar : Bar) (st : EngineState σ) :
    (force_close lastBar st).equity_curve = st.equity_curve := by
  unfold force_close
  split <;> rfl

/-- **C9.** For every non-empty bar series (which is exactly when `run`
succeeds), the equity curve of the result has one sample per bar: its length
equals the number of bars.  The loop appends exactly one sample per iteration,
unconditionally, and the forced close appends none. -/
theorem claim_C9 {σ : Type} (e : BacktestEngine) (s : Strategy σ) (s0 : σ)
    (data : List Bar) (r : BacktestResult)
    (h : e.run s s0 data = Except.ok r) :
    r.equity_curve.length = data.length := by
  obtain ⟨-, rfl⟩ := run_eq_ok e s s0 data r h
  unfold BacktestEngine.runOk loop_state
  rw [compute_result_equity_curve, force_close_equity,
    run_bars_equity_length]
  simp [init_state]

/-- Witness for C9 on the spec's single-trade fixture run: 2 bars, 2 equity
samples. -/
theorem claim_C9_witness :
    (engineSpec.runOk stratHold10 () dataLong).equity_curve.length = dataLong.length :=
  claim_C9 engineSpec stratHold10 () dataLong _ rfl

/-- A bar with signal 0, processed while flat, only appends the current cash
to the equity curve. -/
lemma process_bar_flat {σ : Type} (s : Strategy σ) (c : ℚ) (data : List Bar)
    (i : Nat) (bar : Bar) (st : EngineState σ)
    (hsig : bar.signal = 0) (hpos : st.position_size = 0) :
    process_bar s c data i bar st =
      { st with equity_curve := st.equity_curve ++ [st.cash] } := by
  unfold process_bar exit_step entry_step equity_step
  simp [hsig, hpos]

/-- Over a stretch of zero-signal bars, a flat engine only samples its constant
cash into the equity curve. -/
lemma run_bars_flat {σ : Type} (s : Strategy σ) (c : ℚ) (data : List Bar) :
    ∀ (rest : List Bar) (i : Nat) (st : EngineState σ),
      (∀ b ∈ rest, b.signal = 0) → st.position_size = 0 →
      run_bars s c data i rest st =
        { st with equity_curve := st.equity_curve ++ List.replicate rest.length st.cash }
  | [], _, st, _, _ => by simp [run_bars]
  | bar :: rest, i, st, hsig, hpos => by
      rw [run_bars, process_bar_flat s c data i bar st (hsig bar (by simp)) hpos,
        run_bars_flat s c data rest (i + 1)
          { st with equity_curve := st.equity_curve ++ [st.cash] }
          (fun b hb => hsig b (by simp [hb])) hpos]
      simp [List.replicate_succ]

/-- The forced close is a no-op when no position is open. -/
lemma force_close_flat {σ : Type} (lastBar : Bar) (st : EngineState σ)
    (hpos : st.position_size = 0) :
    force_close lastBar st = st := by
  unfold force_close
  simp [hpos]

/-- **C3.** For every non-empty bar series whose signal is 0 at every bar, the
run completes with zero trades, final capital equal to the initial capital, and
an equity curve every point of which equals the initial capital. -/
theorem claim_C3 {σ : Type} (e : BacktestEngine) (s : Strategy σ) (s0 : σ)
    (data : List Bar) (r : BacktestResult)
    (h : e.run s s0 data = Except.ok r)
    (hsig : ∀ b ∈ data, b.signal = 0) :
    r.num_trades = 0 ∧ r.final_capital = e.initial_capital ∧
    ∀ x ∈ r.equity_curve, x = e.initial_capital := by
  obtain ⟨-, rfl⟩ := run_eq_ok e s s0 data r h
  unfold BacktestEngine.runOk loop_state
  rw [run_bars_flat s e.commission data data 0 _ hsig rfl, force_close_flat _ _ rfl]
  refine ⟨rfl, rfl, ?_⟩
  rw [compute_result_equity_curve]
  intro x hx
  simp only [init_state, List.nil_append] at hx
  exact List.eq_of_mem_replicate hx

/-- Witness for C3 on the two-bar zero-signal fixture. -/
theorem claim_C3_witness :
    (engineSpec.runOk stratHold10 () dataFlat).num_trades = 0 ∧
    (engineSpec.runOk stratHold10 () dataFlat).final_capital = engineSpec.initial_capital ∧
    ∀ x ∈ (engineSpec.runOk stratHold10 () dataFlat).equity_curve,
      x = engineSpec.initial_capital :=
  claim_C3 engineSpec stratHold10 () dataFlat _ rfl (by decide)

/-- Each equity sample is bounded by the expanding maximum continued from any
seed. -/
lemma forall2_le_running_max_from :
    ∀ (l : List ℚ) (m : ℚ), List.Forall₂ (· ≤ ·) l (running_max_from m l)
  | [], _ => List.Forall₂.nil
  | x :: xs, m =>
      List.Forall₂.cons (le_max_right m x) (forall2_le_running_max_from xs (max m x))

/-- Each equity sample is bounded by its running maximum. -/
lemma forall2_le_running_max (l : List ℚ) :
    List.Forall₂ (· ≤ ·) l (running_max l) := by
  cases l with
  | nil => exact List.Forall₂.nil
  | cons x xs => exact List.Forall₂.cons le_rfl (forall2_le_running_max_from xs x)

/-- Pointwise differences of a dominated pair of lists are nonpositive. -/
lemma zipWith_sub_nonpos {l1 l2 : List ℚ} (h : List.Forall₂ (· ≤ ·) l1 l2) :
    ∀ x ∈ List.zipWith (fun a b => a - b) l1 l2, x ≤ 0 := by
  induction h with
  | nil => intro x hx; simp at hx
  | cons hab _ ih =>
      intro x hx
      rcases List.mem_cons.mp hx with hx | hx
      · simpa [hx] using sub_nonpos.mpr hab
      · exact ih x hx

/-- Folding `min` from a nonpositive seed stays nonpositive. -/
lemma foldl_min_nonpos : ∀ (xs : List ℚ) (a : ℚ), a ≤ 0 → xs.foldl min a ≤ 0
  | [], _, ha => ha
  | x :: xs, a, ha =>
      foldl_min_nonpos xs (min a x) (le_trans (min_le_left a x) ha)

/-- The minimum of a list of nonpositive values (default 0) is nonpositive. -/
lemma list_minD_nonpos (l : List ℚ) (h : ∀ x ∈ l, x ≤ 0) : list_minD l 0 ≤ 0 := by
  cases l with
  | nil => exact le_refl 0
  | cons x xs =>
      exact foldl_min_nonpos xs x (h x (List.mem_cons_self x xs))

/-- **C5, amended.** For every completed run the reported max drawdown
(minimum over bars of equity minus its running maximum) is ≤ 0 and the
reported max drawdown percent is ≤ 0; the claimed lower bound −100 does not
hold in general (see the counterexample), because equity marked to market can
go below zero while the peak stays positive. -/
theorem claim_C5 {σ : Type} (e : BacktestEngine) (s : Strategy σ) (s0 : σ)
    (data : List Bar) (r : BacktestResult)
    (h : e.run s s0 data = Except.ok r) :
    r.max_drawdown ≤ 0 ∧ r.max_drawdown_pct ≤ 0 := by
  obtain ⟨-, rfl⟩ := run_eq_ok e s s0 data r h
  unfold BacktestEngine.runOk
  generalize force_close (data.getLastD { date := 0, close := 0, signal := 0 })
    (loop_state e s s0 data) = st
  have hdd : list_minD (List.zipWith (fun a b => a - b) st.equity_curve
      (running_max st.equity_curve)) 0 ≤ 0 :=
    list_minD_nonpos _ (zipWith_sub_nonpos (forall2_le_running_max st.equity_curve))
  refine ⟨by simpa using hdd, ?_⟩
  rw [compute_result_max_drawdown_pct]
  split
  · rename_i hpeak
    have h1 : list_minD (List.zipWith (fun a b => a - b) st.equity_curve
        (running_max st.equity_curve)) 0 / list_maxD (running_max st.equity_curve) 0 ≤ 0 :=
      div_nonpos_iff.mpr (Or.inr ⟨hdd, le_of_lt hpeak⟩)
    linarith
  · exact le_refl 0

/-- Witness for C5 (amended) on the spec's single-trade fixture run. -/
theorem claim_C5_witness :
    (engineSpec.runOk stratHold10 () dataLong).max_drawdown ≤ 0 ∧
    (engineSpec.runOk stratHold10 () dataLong).max_drawdown_pct ≤ 0 :=
  claim_C5 engineSpec stratHold10 () dataLong _ rfl

/-- The loop state of the spec's single-trade fixture just before the forced
close: the LONG position opened on day 0 is still open. -/
lemma loop_state_long_eval :
    loop_state engineSpec stratHold10 () dataLong =
      { cash := 98999, position_size := 10, position_entry_price := 100,
        position_entry_date := some 0, position_type := some Side.long,
        position_leverage := 1, trades := [], equity_curve := [99999, 100099],
        strat := () } := by
  norm_num [loop_state, run_bars, process_bar, exit_step, entry_step, equity_step,
    init_state, engineSpec, stratHold10, dataLong, raw_pnl, leveraged_pnl,
    margin_required, commission_on_notional]

/-- **C2.** For every run whose bar series leaves a position open after the
last bar, the engine force-closes it at the final bar's closing price with zero
exit commission: the final capital is the loop-end cash plus margin used plus
leveraged P&L, with no commission term anywhere, and the resulting trade —
whose `pnl` is the bare leveraged P&L — is appended to the trade list. -/
theorem claim_C2 {σ : Type} (e : BacktestEngine) (s : Strategy σ) (s0 : σ)
    (data : List Bar) (r : BacktestResult) (st : EngineState σ) (lastBar : Bar)
    (h : e.run s s0 data = Except.ok r)
    (hst : st = loop_state e s s0 data)
    (hlast : lastBar = data.getLastD { date := 0, close := 0, signal := 0 })
    (hopen : st.position_size ≠ 0) :
    r.final_capital =
      st.cash
        + margin_required st.position_size st.position_entry_price st.position_leverage
        + leveraged_pnl st.position_type st.position_entry_price lastBar.close
            st.position_size st.position_leverage ∧
    r.trades =
      st.trades ++ [{
        entry_date := st.position_entry_date.getD 0
        exit_date := lastBar.date
        side := st.position_type
        entry_price := st.position_entry_price
        exit_price := lastBar.close
        size := st.position_size
        leverage := st.position_leverage
        pnl := leveraged_pnl st.position_type st.position_entry_price lastBar.close
          st.position_size st.position_leverage
        pnl_pct :=
          if margin_required st.position_size st.position_entry_price
              st.position_leverage > 0 then
            leveraged_pnl st.position_type st.position_entry_price lastBar.close
                st.position_size st.position_leverage
              / margin_required st.position_size st.position_entry_price
                  st.position_leverage * 100
          else 0
        days_held :=
          match st.position_entry_date with
          | some d => lastBar.date - d
          | none => 0 }] := by
  obtain ⟨-, rfl⟩ := run_eq_ok e s s0 data r h
  unfold BacktestEngine.runOk
  rw [← hlast, ← hst]
  unfold force_close
  rw [if_pos hopen]
  exact ⟨rfl, rfl⟩

/-- Witness for C2 on the spec's single-trade fixture, whose LONG position is
still open when the bars run out. -/
theorem claim_C2_witness :
    (engineSpec.runOk stratHold10 () dataLong).final_capital =
      (loop_state engineSpec stratHold10 () dataLong).cash
        + margin_required (loop_state engineSpec stratHold10 () dataLong).position_size
            (loop_state engineSpec stratHold10 () dataLong).position_entry_price
            (loop_state engineSpec stratHold10 () dataLong).position_leverage
        + leveraged_pnl (loop_state engineSpec stratHold10 () dataLong).position_type
            (loop_state engineSpec stratHold10 () dataLong).position_entry_price
            (dataLong.getLastD { date := 0, close := 0, signal := 0 }).close
            (loop_state engineSpec stratHold10 () dataLong).position_size
            (loop_state engineSpec stratHold10 () dataLong).position_leverage ∧
    (engineSpec.runOk stratHold10 () dataLong).trades =
      (loop_state engineSpec stratHold10 () dataLong).trades ++ [{
        entry_date := (loop_state engineSpec stratHold10 () dataLong).position_entry_date.getD 0
        exit_date := (dataLong.getLastD { date := 0, close := 0, signal := 0 }).date
        side := (loop_state engineSpec stratHold10 () dataLong).position_type
        entry_price := (loop_state engineSpec stratHold10 () dataLong).position_entry_price
        exit_price := (dataLong.getLastD { date := 0, close := 0, signal := 0 }).close
        size := (loop_state engineSpec stratHold10 () dataLong).position_size
        leverage := (loop_state engineSpec stratHold10 () dataLong).position_leverage
        pnl := leveraged_pnl (loop_state engineSpec stratHold10 () dataLong).position_type
          (loop_state engineSpec stratHold10 () dataLong).position_entry_price
          (dataLong.getLastD { date := 0, close := 0, signal := 0 }).close
          (loop_state engineSpec stratHold10 () dataLong).position_size
          (loop_state engineSpec stratHold10 () dataLong).position_leverage
        pnl_pct :=
          if margin_required (loop_state engineSpec stratHold10 () dataLong).position_size
              (loop_state engineSpec stratHold10 () dataLong).position_entry_price
              (loop_state engineSpec stratHold10 () dataLong).position_leverage > 0 then
            leveraged_pnl (loop_state engineSpec stratHold10 () dataLong).position_type
                (loop_state engineSpec stratHold10 () dataLong).position_entry_price
                (dataLong.getLastD { date := 0, close := 0, signal := 0 }).close
                (loop_state engineSpec stratHold10 () dataLong).position_size
                (loop_state engineSpec stratHold10 () dataLong).position_leverage
              / margin_required (loop_state engineSpec stratHold10 () dataLong).position_size
                  (loop_state engineSpec stratHold10 () dataLong).position_entry_price
                  (loop_state engineSpec stratHold10 () dataLong).position_leverage * 100
          else 0
        days_held :=
          match (loop_state engineSpec stratHold10 () dataLong).position_entry_date with
          | some d => (dataLong.getLastD { date := 0, close := 0, signal := 0 }).date - d
          | none => 0 }] :=
  claim_C2 engineSpec stratHold10 () dataLong _ _ _ rfl rfl rfl
    (by rw [loop_state_long_eval]; norm_num)

/-- The capital currently locked away from cash by the open position: the
margin deducted at entry plus the entry commission (0 when flat).  The entry
deduction at engine.py line 216 equals exactly this amount for the recorded
entry price, size and leverage, which never change while the position is
open. -/
def open_cost {σ : Type} (rate : ℚ) (st : EngineState σ) : ℚ :=
  if st.position_size ≠ 0 then
    margin_required st.position_size st.position_entry_price st.position_leverage
      + commission_on_notional st.position_size st.position_entry_price rate
  else 0

/-- Sum over recorded trades of `pnl` minus the entry commission on that
trade's notional. -/
def trades_net (rate : ℚ) (ts : List Trade) : ℚ :=
  (ts.map (fun t => t.pnl - t.size * t.entry_price * rate)).sum

lemma trades_net_append (rate : ℚ) (ts : List Trade) (t : Trade) :
    trades_net rate (ts ++ [t]) = trades_net rate ts + (t.pnl - t.size * t.entry_price * rate) := by
  simp [trades_net]

/-- The cash-conservation invariant is preserved by the exit step. -/
lemma exit_step_inv {σ : Type} (s : Strategy σ) (c : ℚ) (data : List Bar)
    (i : Nat) (bar : Bar) (st : EngineState σ) (init : ℚ)
    (hInv : st.cash + open_cost c st = init + trades_net c st.trades) :
    (exit_step s c data i bar st).cash + open_cost c (exit_step s c data i bar st)
      = init + trades_net c (exit_step s c data i bar st).trades := by
  unfold exit_step
  dsimp only
  split
  · rename_i hcond
    split
    · rw [open_cost, if_pos hcond.1] at hInv
      simp only [open_cost, commission_on_notional, margin_required,
        trades_net_append] at hInv ⊢
      norm_num
      linarith
    · exact hInv
  · exact hInv

/-- The cash-conservation invariant is preserved by the entry step. -/
lemma entry_step_inv {σ : Type} (s : Strategy σ) (c : ℚ) (data : List Bar)
    (i : Nat) (bar : Bar) (pv : ℚ) (st : EngineState σ) (init : ℚ)
    (hInv : st.cash + open_cost c st = init + trades_net c st.trades) :
    (entry_step s c data i bar pv st).cash + open_cost c (entry_step s c data i bar pv st)
      = init + trades_net c (entry_step s c data i bar pv st).trades := by
  unfold entry_step
  dsimp only
  split
  · rename_i hcond
    split
    · rename_i hsize
      split
      · rw [open_cost, if_neg (by simp [hcond.1])] at hInv
        simp only [open_cost, commission_on_notional, margin_required] at hInv ⊢
        rw [if_pos (by simpa using ne_of_gt hsize)]
        linarith
      · exact hInv
    · exact hInv
  · exact hInv

/-- The cash-conservation invariant is preserved by the equity step. -/
lemma equity_step_inv {σ : Type} (bar : Bar) (st : EngineState σ) (c init : ℚ)
    (hInv : st.cash + open_cost c st = init + trades_net c st.trades) :
    (equity_step bar st).cash + open_cost c (equity_step bar st)
      = init + trades_net c (equity_step bar st).trades := hInv

/-- The cash-conservation invariant is preserved by one loop iteration. -/
lemma process_bar_inv {σ : Type} (s : Strategy σ) (c : ℚ) (data : List Bar)
    (i : Nat) (bar : Bar) (st : EngineState σ) (init : ℚ)
    (hInv : st.cash + open_cost c st = init + trades_net c st.trades) :
    (process_bar s c data i bar st).cash + open_cost c (process_bar s c data i bar st)
      = init + trades_net c (process_bar s c data i bar st).trades := by
  unfold process_bar
  exact equity_step_inv _ _ _ _
    (entry_step_inv _ _ _ _ _ _ _ _ (exit_step_inv _ _ _ _ _ _ _ hInv))

/-- The cash-conservation invariant is preserved by the whole loop. -/
lemma run_bars_inv {σ : Type} (s : Strategy σ) (c : ℚ) (data : List Bar) (init : ℚ) :
    ∀ (rest : List Bar) (i : Nat) (st : EngineState σ),
      st.cash + open_cost c st = init + trades_net c st.trades →
      (run_bars s c data i rest st).cash + open_cost c (run_bars s c data i rest st)
        = init + trades_net c (run_bars s c data i rest st).trades
  | [], _, _, hInv => hInv
  | bar :: rest, i, st, hInv =>
      run_bars_inv s c data init rest (i + 1) _
        (process_bar_inv s c data i bar st init hInv)

/-- **C10.** For every completed run, the change in capital is exactly the sum
over recorded trades of the trade's `pnl` minus the entry commission on its
notional: each trade's `pnl` already carries its exit commission (zero for the
forced close), never its entry commission, and nothing else moves cash. -/
theorem claim_C10 {σ : Type} (e : BacktestEngine) (s : Strategy σ) (s0 : σ)
    (data : List Bar) (r : BacktestResult)
    (h : e.run s s0 data = Except.ok r) :
    r.final_capital - e.initial_capital = trades_net e.commission r.trades := by
  obtain ⟨-, rfl⟩ := run_eq_ok e s s0 data r h
  unfold BacktestEngine.runOk
  have hInv := run_bars_inv s e.commission data e.initial_capital data 0
    (init_state e.initial_capital s0)
    (by simp [init_state, open_cost, trades_net])
  rw [← loop_state] at hInv
  generalize hst : loop_state e s s0 data = st at hInv
  by_cases hopen : st.position_size ≠ 0
  · rw [open_cost, if_pos hopen] at hInv
    unfold force_close
    rw [if_pos hopen]
    simp only [compute_result_final_capital, compute_result_trades,
      trades_net_append, commission_on_notional, margin_required] at hInv ⊢
    norm_num
    linarith
  · rw [force_close_flat _ _ (not_not.mp hopen)]
    rw [open_cost, if_neg hopen] at hInv
    simp only [compute_result_final_capital, compute_result_trades]
    linarith

/-- Witness for C10 on the spec's single-trade fixture run:
100099 − 100000 = (100 − 10·100·0.001). -/
theorem claim_C10_witness :
    (engineSpec.runOk stratHold10 () dataLong).final_capital
        - engineSpec.initial_capital =
      trades_net engineSpec.commission (engineSpec.runOk stratHold10 () dataLong).trades :=
  claim_C10 engineSpec stratHold10 () dataLong _ rfl

/-- The sample variance is never negative (in particular not for the
degenerate lists where the `n − 1` denominator is zero or negative, where the
numerator vanishes or the convention `x / 0 = 0` applies). -/
lemma sample_variance_nonneg (l : List ℚ) : 0 ≤ sample_variance l := by
  cases l with
  | nil => simp [sample_variance]
  | cons x xs =>
      apply div_nonneg
      · apply List.sum_nonneg
        intro y hy
        obtain ⟨a, -, rfl⟩ := List.mem_map.mp hy
        positivity
      · have h1 : (1 : ℚ) ≤ ((x :: xs).length : ℚ) := by
          have := Nat.succ_le_of_lt (List.length_pos.mpr (List.cons_ne_nil x xs))
          exact_mod_cast this
        linarith

/-- Fewer than two observations give sample variance 0: an empty list has a
zero numerator, and a single observation has deviation 0 from its own mean. -/
lemma sample_variance_len_lt_two (l : List ℚ) (h : l.length < 2) :
    sample_variance l = 0 := by
  match l with
  | [] => simp [sample_variance]
  | [x] => simp [sample_variance, list_mean]
  | x :: y :: xs => exact absurd h (by simp)

/-- **C8.** For every completed run the Sharpe ratio is 0 whenever there are
fewer than 2 bar-to-bar percent-return observations or their standard
deviation is 0 (a well-defined real number, never an infinity), and otherwise
equals the mean of the returns divided by their standard deviation times
√252. -/
theorem claim_C8 {σ : Type} (e : BacktestEngine) (s : Strategy σ) (s0 : σ)
    (data : List Bar) (r : BacktestResult)
    (_h : e.run s s0 data = Except.ok r) :
    ((pct_changes r.equity_curve).length < 2 ∨
        Real.sqrt (sample_variance (pct_changes r.equity_curve)) = 0 →
      sharpe_ratio r.equity_curve = 0) ∧
    (2 ≤ (pct_changes r.equity_curve).length →
      Real.sqrt (sample_variance (pct_changes r.equity_curve)) ≠ 0 →
      sharpe_ratio r.equity_curve =
        ((list_mean (pct_changes r.equity_curve) : ℝ) /
            Real.sqrt (sample_variance (pct_changes r.equity_curve))) * Real.sqrt 252) := by
  generalize r.equity_curve = eq
  constructor
  · intro hdeg
    have hv : sample_variance (pct_changes eq) = 0 := by
      rcases hdeg with hlen | hsq
      · exact sample_variance_len_lt_two _ hlen
      · have hle : ((sample_variance (pct_changes eq) : ℚ) : ℝ) ≤ 0 :=
          Real.sqrt_eq_zero'.mp hsq
        exact le_antisymm (by exact_mod_cast hle) (sample_variance_nonneg _)
    unfold sharpe_ratio
    dsimp only
    rw [if_neg]
    simp [hv]
  · intro hlen hsq
    have h0 : 0 < (pct_changes eq).length := by omega
    have hvpos : 0 < sample_variance (pct_changes eq) := by
      rcases lt_or_eq_of_le (sample_variance_nonneg (pct_changes eq)) with hv | hv
      · exact hv
      · exact absurd (by rw [← hv]; simp) hsq
    unfold sharpe_ratio
    dsimp only
    rw [if_pos ⟨h0, hvpos⟩]

/-- Witness for C8 on the spec's single-trade fixture run, whose 2-point
equity curve yields a single return observation, hence Sharpe ratio 0. -/
theorem claim_C8_witness :
    ((pct_changes (engineSpec.runOk stratHold10 () dataLong).equity_curve).length < 2 ∨
        Real.sqrt (sample_variance
          (pct_changes (engineSpec.runOk stratHold10 () dataLong).equity_curve)) = 0 →
      sharpe_ratio (engineSpec.runOk stratHold10 () dataLong).equity_curve = 0) ∧
    (2 ≤ (pct_changes (engineSpec.runOk stratHold10 () dataLong).equity_curve).length →
      Real.sqrt (sample_variance
        (pct_changes (engineSpec.runOk stratHold10 () dataLong).equity_curve)) ≠ 0 →
      sharpe_ratio (engineSpec.runOk stratHold10 () dataLong).equity_curve =
        ((list_mean (pct_changes (engineSpec.runOk stratHold10 () dataLong).equity_curve) : ℝ) /
            Real.sqrt (sample_variance
              (pct_changes (engineSpec.runOk stratHold10 () dataLong).equity_curve))) *
          Real.sqrt 252) :=
  claim_C8 engineSpec stratHold10 () dataLong _ rfl

/-- Witness for C6 on the spec's single-trade fixture run. -/
theorem claim_C6_witness :
    (0 < (engineSpec.runOk stratHold10 () dataLong).num_trades →
      (engineSpec.runOk stratHold10 () dataLong).win_rate =
        ((engineSpec.runOk stratHold10 () dataLong).winning_trades : ℚ) /
          ((engineSpec.runOk stratHold10 () dataLong).num_trades : ℚ)) ∧
    ((engineSpec.runOk stratHold10 () dataLong).num_trades = 0 →
      (engineSpec.runOk stratHold10 () dataLong).win_rate = 0) ∧
    0 ≤ (engineSpec.runOk stratHold10 () dataLong).win_rate ∧
    (engineSpec.runOk stratHold10 () dataLong).win_rate ≤ 1 ∧
    ((engineSpec.runOk stratHold10 () dataLong).win_rate = 0 ↔
      (engineSpec.runOk stratHold10 () dataLong).winning_trades = 0) :=
  claim_C6 engineSpec stratHold10 () dataLong _ rfl

end TradingTester
